import Mathlib

/-!
Shallow embedding of `nfc/clf/transport.py` (transport layer for host to
reader communication): the TTY serial framing logic (`TTY.read`), the USB
bulk read/write logic (`USB.read`, `USB.write`), the open/close resource
lifecycle of both transports, and the tty device-node resolution of
`TTY.find` (accessibility probing and numeric-suffix sorting).

Byte streams are lists of `Nat`; a serial port is modelled as the finite
list of bytes it will deliver, so `tty.read(n)` takes at most `n` bytes
and may return fewer when the stream is exhausted (a timeout with a
partial result).  Python exceptions become explicit result constructors.
-/

namespace Transport

/-- The five-kind error taxonomy mapped from `IOError` errno values:
`ETIMEDOUT`, `ENODEV`, `EACCES`, `EBUSY`, `EIO`. -/
inductive ErrKind
  | timeout
  | deviceVanished
  | permissionDenied
  | deviceBusy
  | genericIo
deriving DecidableEq

/-- Outcome of `TTY.read`: a returned frame together with the bytes left
on the line for the next call, a mapped `IOError` of one of the five
kinds, or an unmapped Python `IndexError` (raised when the code indexes
past the end of a short buffer). -/
inductive TTYReadResult
  | frame (f rest : List Nat)
  | error (k : ErrKind)
  | indexError
deriving DecidableEq

/-- The fixed 6-byte ACK constant `b"\x00\x00\xff\x00\xff\x00"`
(transport.py line 144). -/
def ACK : List Nat := [0x00, 0x00, 0xFF, 0x00, 0xFF, 0x00]

/-- `self.tty.read(n)`: deliver up to `n` bytes from the stream, return
the delivered bytes and the remaining stream. -/
def serial_read (buf : List Nat) (n : Nat) : List Nat × List Nat :=
  (buf.take n, buf.drop n)

/-- `TTY.read` (transport.py lines 138-153): read 6 bytes; empty result
is `ETIMEDOUT`; a buffer starting with the ACK constant is returned as
is; otherwise `LEN = frame[3]`, with the `LEN == 0xFF` escape reading 3
extra bytes and recomputing `LEN = frame[5] << 8 | frame[6]`, then
`LEN + 1` further bytes are read and the whole buffer returned.
Indexing past the end of the buffer is Python's `IndexError`, modelled
by explicit length guards in front of each access. -/
def tty_read (s : List Nat) : TTYReadResult :=
  let r1 := serial_read s 6
  let frame := r1.1
  if frame.length = 0 then .error .timeout
  else if ACK.isPrefixOf frame then .frame frame r1.2
  else if frame.length < 4 then .indexError
  else
    let LEN := frame.getD 3 0
    if LEN = 0xFF then
      let r2 := serial_read r1.2 3
      let frame2 := frame ++ r2.1
      if frame2.length < 7 then .indexError
      else
        let LEN2 := frame2.getD 5 0 <<< 8 ||| frame2.getD 6 0
        let r3 := serial_read r2.2 (LEN2 + 1)
        .frame (frame2 ++ r3.1) r3.2
    else
      let r2 := serial_read r1.2 (LEN + 1)
      .frame (frame ++ r2.1) r2.2

/-- Length of the returned frame, when a frame was returned. -/
def frameLen? : TTYReadResult → Option Nat
  | .frame f _ => some f.length
  | _ => none

/-- Remaining stream after the call, when a frame was returned. -/
def frameRest? : TTYReadResult → Option (List Nat)
  | .frame _ r => some r
  | _ => none

example : tty_read [] = .error .timeout := by decide
example : tty_read [0, 0, 255, 0, 255, 0, 9, 9] = .frame ACK [9, 9] := by decide
example : tty_read [1, 2] = .indexError := by decide
example : frameLen? (tty_read [0, 0, 255, 2, 254, 213, 7, 7, 7]) = some 9 := by decide
example :
    frameLen? (tty_read [0, 0, 255, 255, 255, 0, 2, 170, 171, 1, 2, 3]) = some 12 := by
  decide

/-! ## USB transport -/

/-- Outcome of the underlying `self.usb_dev.bulkRead` call: delivered
data, or one of the libusb exceptions caught by `USB.read`
(`USBErrorTimeout`, `USBErrorNoDevice`, any other `USBError`). -/
inductive BulkReadOutcome
  | data (bs : List Nat)
  | errTimeout
  | errNoDevice
  | errOther
deriving DecidableEq

/-- `USB.read` (transport.py lines 299-318): map libusb errors onto the
errno taxonomy; a zero-length successful read is reinterpreted as
`EIO` (generic I/O failure); otherwise the data is the frame. -/
def usb_read : BulkReadOutcome → Except ErrKind (List Nat)
  | .errTimeout => .error .timeout
  | .errNoDevice => .error .deviceVanished
  | .errOther => .error .genericIo
  | .data bs => if bs.length = 0 then .error .genericIo else .ok bs

/-- `USB.write` (transport.py lines 320-327): one bulk write of the
frame, followed by a zero-length bulk write exactly when the frame
length is a multiple of the OUT endpoint's max packet size.  Returns
the list of payloads passed to `bulkWrite` in order; `none` models the
`ZeroDivisionError` of `len(frame) % 0` (real endpoints always report a
positive max packet size). -/
def usb_write (frame : List Nat) (maxPacketSize : Nat) : Option (List (List Nat)) :=
  if maxPacketSize = 0 then none
  else if frame.length % maxPacketSize = 0 then some [frame, []]
  else some [frame]

/-- A USB endpoint descriptor as used by `USB.open`: the values of
`getAddress()`, `getAttributes()` and `getMaxPacketSize()`. -/
structure Endpoint where
  address : Nat
  attributes : Nat
  maxPacketSize : Nat
deriving DecidableEq

def TRANSFER_TYPE_MASK : Nat := 0x03
def TRANSFER_TYPE_BULK : Nat := 0x02
def ENDPOINT_DIR_MASK : Nat := 0x80
def ENDPOINT_IN : Nat := 0x80
def ENDPOINT_OUT : Nat := 0x00

/-- `transfer_type` helper (transport.py lines 245-246). -/
def transfer_type (x : Nat) : Nat := x &&& TRANSFER_TYPE_MASK

/-- `endpoint_dir` helper (transport.py lines 248-249). -/
def endpoint_dir (x : Nat) : Nat := x &&& ENDPOINT_DIR_MASK

/-- The endpoint scan of `USB.open` (transport.py lines 251-260): walk
the first setting's endpoints keeping the first bulk IN and the first
bulk OUT endpoint (`if not self.usb_inp` / `if not self.usb_out`).
Returns `(usb_inp, usb_out)`. -/
def scan_endpoints : List Endpoint → Option Endpoint → Option Endpoint →
    Option Endpoint × Option Endpoint
  | [], inp, out => (inp, out)
  | ep :: rest, inp, out =>
    if transfer_type ep.attributes = TRANSFER_TYPE_BULK then
      let inp2 := if endpoint_dir ep.address = ENDPOINT_IN ∧ inp = none then some ep else inp
      let out2 := if endpoint_dir ep.address = ENDPOINT_OUT ∧ out = none then some ep else out
      scan_endpoints rest inp2 out2
    else scan_endpoints rest inp out

/-- The mutable fields of a `USB` transport object.  A device handle
(the result of `dev.open()`) is identified by a `Nat`. -/
structure USBState where
  usb_dev : Option Nat
  usb_out : Option Endpoint
  usb_inp : Option Endpoint
deriving DecidableEq

/-- The libusb exception raised by `dev.open()` / `claimInterface(0)`
and caught by `USB.open` (transport.py lines 277-282). -/
inductive USBClaimError
  | access
  | busy
  | noDevice
deriving DecidableEq

/-- Errno mapping of the `except` clauses at transport.py lines 277-282. -/
def mapClaimError : USBClaimError → ErrKind
  | .access => .permissionDenied
  | .busy => .deviceBusy
  | .noDevice => .deviceVanished

/-- Outcome of the `try` block at transport.py lines 274-276: both
`dev.open()` and `claimInterface(0)` succeed, `dev.open()` itself
raises, or `dev.open()` succeeds (so `self.usb_dev` is assigned) and
`claimInterface(0)` then raises. -/
inductive AcquireOutcome
  | ok
  | openFailed (e : USBClaimError)
  | claimFailed (e : USBClaimError)
deriving DecidableEq

/-- `USB.open` (transport.py lines 226-282).  Environment inputs:
whether the `(bus, adr)` device is present in the enumeration, whether
it has a configuration setting, its first setting's endpoint list, the
handle `dev.open()` would yield, and the outcome of the open/claim
`try` block.  Returns the updated state, the list of device handles
the call closed (`USB.open` contains no close call, so this is always
empty: the previous `usb_dev` reference is dropped at line 227 without
being closed), and the call's result. -/
def usb_open (st : USBState) (deviceFound hasSettings : Bool)
    (eps : List Endpoint) (newHandle : Nat) (acquire : AcquireOutcome) :
    USBState × List Nat × Except ErrKind Unit :=
  let st0 : USBState := ⟨none, none, none⟩
  if ¬ deviceFound then (st0, [], .error .deviceVanished)
  else if ¬ hasSettings then (st0, [], .error .deviceVanished)
  else
    let scanned := scan_endpoints eps none none
    let st1 : USBState := ⟨none, scanned.2, scanned.1⟩
    if scanned.1 = none ∨ scanned.2 = none then (st1, [], .error .deviceVanished)
    else
      match acquire with
      | .ok => (⟨some newHandle, st1.usb_out, st1.usb_inp⟩, [], .ok ())
      | .openFailed e => (st1, [], .error (mapClaimError e))
      | .claimFailed e =>
        (⟨some newHandle, st1.usb_out, st1.usb_inp⟩, [], .error (mapClaimError e))

/-- `USB.close` (transport.py lines 284-289): close `usb_dev` when set,
clear all three fields.  Returns the new state and the list of device
handles released. -/
def usb_close (st : USBState) : USBState × List Nat :=
  (⟨none, none, none⟩, match st.usb_dev with | some d => [d] | none => [])

/-! ## TTY open/close lifecycle -/

/-- `TTY.close` (transport.py lines 164-168): release the held serial
object if any.  State is the `self.tty` field (a resource id); the
second component lists the resources released. -/
def tty_close (t : Option Nat) : Option Nat × List Nat :=
  match t with
  | some r => (none, [r])
  | none => (none, [])

/-- `TTY.open` (transport.py lines 121-123): `self.close()` first, then
acquire the new serial object. -/
def tty_open (t : Option Nat) (newPort : Nat) : Option Nat × List Nat :=
  let c := tty_close t
  (some newPort, c.2)

example : usb_write [1, 2, 3] 3 = some [[1, 2, 3], []] := by decide
example : usb_write [1, 2, 3] 2 = some [[1, 2, 3]] := by decide
/-! ## TTY.find: device node probing -/

/-- Outcome of probing one `/dev` node with
`termios.tcgetattr(open('/dev/%s' % tty))` (transport.py lines 82-86):
success, a `termios.error` (silently passed), or an `IOError` from
opening the node. -/
inductive ProbeOutcome
  | ok
  | termiosError
  | ioError
deriving DecidableEq

instance : Inhabited ProbeOutcome := ⟨ProbeOutcome.ok⟩

/-- The `'/dev/'` path prefix prepended to accessible nodes. -/
def devDir : List Char := ['/', 'd', 'e', 'v', '/']

/-- The raw string `r'\d+$'` tested by
`TTYS.pattern.endswith(r'\d+$')` (transport.py line 88). -/
def dPlusDollar : List Char := ['\\', 'd', '+', '$']

/-- Pattern `'^tty{0}$'.format(match.group(2))` built when the selector
has a trailing number (transport.py line 59). -/
def exactPattern (sel : List Char) : List Char :=
  ['^', 't', 't', 'y'] ++ sel ++ ['$']

/-- Pattern `'^tty{0}\d+$'.format(match.group(2))` built for a bare-name
selector (transport.py line 61). -/
def wildPattern (sel : List Char) : List Char :=
  ['^', 't', 't', 'y'] ++ sel ++ dPlusDollar

/-- Pattern `'^tty(S|ACM|AMA|USB)\d+$'` built for an empty selector
(transport.py line 63). -/
def defaultPattern : List Char :=
  ['^', 't', 't', 'y', '(', 'S', '|', 'A', 'C', 'M', '|', 'A', 'M', 'A',
   '|', 'U', 'S', 'B', ')'] ++ dPlusDollar

/-- `TTYS.pattern.endswith(r'\d+$')`: the flag the code uses both to
decide IOError propagation (line 88) and as the returned wildcard
indicator (line 95). -/
def wildcardFlag (pat : List Char) : Bool := dPlusDollar.isSuffixOf pat

/-- The probe loop of transport.py lines 80-91 over candidate nodes with
their probe outcomes.  An accessible node is replaced by its
`'/dev/' + tty` path; a `termios.error` leaves the bare name in place;
an `IOError` is re-raised when the pattern does not end in `r'\d+$'`
(non-wildcard), else logged, leaving the bare name in place. -/
def probe_ttys : List (List Char × ProbeOutcome) → Bool → Except Unit (List (List Char))
  | [], _ => .ok []
  | (n, o) :: rest, wild =>
    match o with
    | .ok => (probe_ttys rest wild).map (fun l => (devDir ++ n) :: l)
    | .termiosError => (probe_ttys rest wild).map (fun l => n :: l)
    | .ioError =>
      if ¬ wild then .error () else (probe_ttys rest wild).map (fun l => n :: l)

/-- The probe loop followed by the
`ttys = [tty for tty in ttys if tty.startswith('/dev/')]` filter
(transport.py line 93). -/
def tty_find_avail (nodes : List (List Char × ProbeOutcome)) (wild : Bool) :
    Except Unit (List (List Char)) :=
  (probe_ttys nodes wild).map (fun l => l.filter (fun t => devDir.isPrefixOf t))

/-- The nodes that survive resolution: those whose probe succeeded,
with the `'/dev/'` prefix attached. -/
def goodNodes (nodes : List (List Char × ProbeOutcome)) : List (List Char) :=
  (nodes.filter (fun n => decide (n.2 = ProbeOutcome.ok))).map (fun n => devDir ++ n.1)

/-! ## TTY.find: numeric-suffix sort -/

/-- `\d` (an ASCII decimal digit, as matched by the sort pattern
`'(\D+)(\d+)'` on device node names). -/
def isDigitChar (c : Char) : Bool := decide (48 ≤ c.toNat) && decide (c.toNat ≤ 57)

/-- Group 1 of `re.compile('(\D+)(\d+)').match(s)`: the maximal leading
run of non-digits. -/
def namePre (s : List Char) : List Char := s.takeWhile (fun c => ! isDigitChar c)

/-- Group 2 of `re.compile('(\D+)(\d+)').match(s)`: the digit run that
follows the leading non-digits. -/
def nameDigits (s : List Char) : List Char :=
  (s.dropWhile (fun c => ! isDigitChar c)).takeWhile (fun c => isDigitChar c)

/-- `"%3s" % digits`: right-align in a field of width 3 with spaces
(longer strings are kept unchanged). -/
def pad3 (s : List Char) : List Char := List.replicate (3 - s.length) ' ' ++ s

/-- The sort key `"%s%3s" % pattern.match(s).groups()` of
transport.py line 74. -/
def sortKey (s : List Char) : List Char := namePre s ++ pad3 (nameDigits s)

/-- Python string comparison: lexicographic by code point, a proper
prefix sorts first. -/
def lexLe : List Char → List Char → Bool
  | [], _ => true
  | _ :: _, [] => false
  | a :: as, b :: bs =>
    if a.toNat < b.toNat then true
    else if b.toNat < a.toNat then false
    else lexLe as bs

/-- Comparison of two node names by their sort keys, as used by
`ttys.sort(key=...)`. -/
def ttyKeyLe (a b : List Char) : Prop := lexLe (sortKey a) (sortKey b) = true

instance : DecidableRel ttyKeyLe := fun a b => by
  unfold ttyKeyLe
  exact inferInstance

/-- `ttys.sort(key=lambda s: "%s%3s" % pattern.match(s).groups())`
(transport.py lines 72-74), modelled with a stable sort by `ttyKeyLe`. -/
def sortTTYs (l : List (List Char)) : List (List Char) := List.insertionSort ttyKeyLe l

/-- Numeric value of a digit character. -/
def digitVal (c : Char) : Nat := c.toNat - 48

/-- Numeric value of a digit string. -/
def digitsVal (l : List Char) : Nat := l.foldl (fun a c => 10 * a + digitVal c) 0

/-- A device node name of the shape matched by `'(\D+)(\d+)'` with a
numeric suffix that the 3-wide padded key orders correctly: a nonempty
non-digit prefix followed by a nonempty suffix of at most 3 digits
without leading zeros. -/
def WFName (s : List Char) : Prop :=
  namePre s ≠ [] ∧ nameDigits s ≠ [] ∧ s = namePre s ++ nameDigits s ∧
    (nameDigits s).length ≤ 3 ∧
    ((nameDigits s).length ≤ 1 ∨ 49 ≤ ((nameDigits s).headD ' ').toNat)

instance : DecidablePred WFName := fun s => by
  unfold WFName
  exact inferInstance

example : usb_read (.data []) = .error .genericIo := rfl
example : tty_open (some 7) 9 = (some 9, [7]) := by decide
example :
    usb_open ⟨some 7, none, none⟩ true true [⟨0x81, 2, 64⟩, ⟨0x02, 2, 64⟩] 8 .ok =
      (⟨some 8, some ⟨0x02, 2, 64⟩, some ⟨0x81, 2, 64⟩⟩, [], .ok ()) := rfl
example :
    sortTTYs ["ttyACM10".toList, "ttyACM2".toList] =
      ["ttyACM2".toList, "ttyACM10".toList] := by decide
example :
    sortTTYs ["ttyS999".toList, "ttyS1000".toList] =
      ["ttyS1000".toList, "ttyS999".toList] := by decide
example : wildcardFlag (exactPattern "ACM0".toList) = false := by decide
example : wildcardFlag (wildPattern "ACM".toList) = true := by decide
example : wildcardFlag defaultPattern = true := by decide
example :
    tty_find_avail [("ttyACM0".toList, .ok), ("ttyACM1".toList, .ioError)] true =
      .ok ["/dev/ttyACM0".toList] := rfl
example :
    tty_find_avail [("ttyACM0".toList, .ioError)] false = .error () := rfl

/-! ## Helper lemmas about `tty_read` -/

theorem getD_take_of_lt {s : List Nat} {i n : Nat} (h : i < n) :
    (s.take n).getD i 0 = s.getD i 0 := by
  simp [List.getD_eq_getElem?_getD, List.getElem?_take_of_lt h]

theorem isPrefixOf_true_iff {α : Type} [BEq α] [LawfulBEq α] (l₁ : List α) :
    ∀ l₂ : List α, l₁.isPrefixOf l₂ = true ↔ ∃ t, l₁ ++ t = l₂ := by
  induction l₁ with
  | nil =>
    intro l₂
    simp [List.isPrefixOf]
  | cons a as ih =>
    intro l₂
    cases l₂ with
    | nil => simp [List.isPrefixOf]
    | cons b bs =>
      show (a == b && as.isPrefixOf bs) = true ↔ _
      rw [Bool.and_eq_true, beq_iff_eq]
      constructor
      · rintro ⟨hab, hp⟩
        obtain ⟨t, ht⟩ := (ih bs).mp hp
        exact ⟨t, by rw [List.cons_append, hab, ht]⟩
      · rintro ⟨t, ht⟩
        rw [List.cons_append] at ht
        injection ht with h1 h2
        exact ⟨h1, (ih bs).mpr ⟨t, h2⟩⟩

theorem not_ack_isPrefixOf {s : List Nat} (h6 : 6 ≤ s.length) (hA : s.take 6 ≠ ACK) :
    ¬ (ACK.isPrefixOf (s.take 6) = true) := by
  intro hc
  obtain ⟨t, ht⟩ := (isPrefixOf_true_iff ACK (s.take 6)).mp hc
  have htk : (s.take 6).length = 6 := by
    simp [List.length_take]
    omega
  have ht0 : t = [] := by
    have hl := congrArg List.length ht
    rw [List.length_append, htk] at hl
    have hACKlen : ACK.length = 6 := rfl
    rw [hACKlen] at hl
    exact List.length_eq_zero.mp (by omega)
  rw [ht0, List.append_nil] at ht
  exact hA ht.symm

/-- On a stream whose first 6 bytes are not the ACK constant and whose
4th byte is not the `0xFF` escape, `TTY.read` returns the 6 bytes
already read plus `LEN + 1` further bytes, where `LEN` is the 4th
byte. -/
theorem tty_read_normal (s : List Nat) (hA : s.take 6 ≠ ACK)
    (hL : s.getD 3 0 ≠ 255) (hlen : 7 + s.getD 3 0 ≤ s.length) :
    tty_read s = .frame (s.take 6 ++ (s.drop 6).take (s.getD 3 0 + 1))
      ((s.drop 6).drop (s.getD 3 0 + 1)) := by
  have h7 : 7 ≤ s.length := by omega
  have htake : (s.take 6).length = 6 := by
    simp [List.length_take]
    omega
  have hget : (s.take 6).getD 3 0 = s.getD 3 0 := getD_take_of_lt (by omega)
  simp only [tty_read, serial_read]
  rw [if_neg (by omega), if_neg (not_ack_isPrefixOf (by omega) hA),
    if_neg (by omega), hget, if_neg hL]

/-- On a stream whose 4th byte is the `0xFF` escape, `TTY.read` reads 3
more header bytes (9 in total), recomputes the length from bytes 6 and
7 of the buffer, and reads that many bytes plus one more. -/
theorem tty_read_extended (s : List Nat) (hL : s.getD 3 0 = 255)
    (hlen : 10 + (s.getD 5 0 <<< 8 ||| s.getD 6 0) ≤ s.length) :
    tty_read s = .frame
      (s.take 9 ++ (s.drop 9).take ((s.getD 5 0 <<< 8 ||| s.getD 6 0) + 1))
      ((s.drop 9).drop ((s.getD 5 0 <<< 8 ||| s.getD 6 0) + 1)) := by
  have h10 : 10 ≤ s.length := by omega
  have htake : (s.take 6).length = 6 := by
    simp [List.length_take]
    omega
  have hA : s.take 6 ≠ ACK := by
    intro he
    have : (s.take 6).getD 3 0 = 0 := by rw [he]; rfl
    rw [getD_take_of_lt (by omega)] at this
    omega
  have hget : (s.take 6).getD 3 0 = s.getD 3 0 := getD_take_of_lt (by omega)
  have hjoin : s.take 6 ++ (s.drop 6).take 3 = s.take 9 := (List.take_add s 6 3).symm
  have hdrop : (s.drop 6).drop 3 = s.drop 9 := by
    rw [List.drop_drop]
  have htake9 : (s.take 9).length = 9 := by
    simp [List.length_take]
    omega
  have hget5 : (s.take 9).getD 5 0 = s.getD 5 0 := getD_take_of_lt (by omega)
  have hget6 : (s.take 9).getD 6 0 = s.getD 6 0 := getD_take_of_lt (by omega)
  simp only [tty_read, serial_read]
  rw [if_neg (by omega), if_neg (not_ack_isPrefixOf (by omega) hA),
    if_neg (by omega), hget, if_pos hL, hjoin, hdrop, if_neg (by omega),
    hget5, hget6]

/-- C1 counterexample: on the 9-byte stream
`[0x00, 0x00, 0xFF, 0x02, 0xFE, 0xD5, 7, 7, 7]` (not an ACK, `LEN = 2`)
the returned frame has 9 bytes, not `4 + LEN + 1 = 7` as claimed. -/
theorem c1_counterexample :
    frameLen? (tty_read [0x00, 0x00, 0xFF, 0x02, 0xFE, 0xD5, 7, 7, 7]) = some 9 ∧
    frameLen? (tty_read [0x00, 0x00, 0xFF, 0x02, 0xFE, 0xD5, 7, 7, 7]) ≠
      some (4 + 2 + 1) := by
  decide

/-- C1 (amended): for every serial input stream with at least
`6 + LEN + 1` bytes whose first 6 bytes are not the ACK constant and
whose 4th byte `LEN` is less than `0xFF`, `TTY.read` returns a frame of
exactly `6 + LEN + 1` bytes in total (the 6 header bytes already read
plus `LEN + 1` further bytes). -/
theorem c1_normal_frame_length (s : List Nat) (hA : s.take 6 ≠ ACK)
    (hL : s.getD 3 0 ≠ 255) (hlen : 7 + s.getD 3 0 ≤ s.length) :
    frameLen? (tty_read s) = some (6 + s.getD 3 0 + 1) := by
  rw [tty_read_normal s hA hL hlen]
  simp only [frameLen?, List.length_append, List.length_take, List.length_drop,
    Option.some.injEq]
  omega

/-- Witness for C1 at the stream of `c1_counterexample` (`LEN = 2`,
frame length `6 + 2 + 1 = 9`). -/
theorem c1_normal_frame_length_witness :
    frameLen? (tty_read [0x00, 0x00, 0xFF, 0x02, 0xFE, 0xD5, 7, 7, 7]) =
      some (6 + 2 + 1) := by
  have h := c1_normal_frame_length [0x00, 0x00, 0xFF, 0x02, 0xFE, 0xD5, 7, 7, 7]
    (by decide) (by decide) (by decide)
  simpa using h

/-- C2 counterexample: on the 12-byte stream
`[0x00, 0x00, 0xFF, 0xFF, 0xFF, 0x00, 0x02, 170, 171, 1, 2, 3]`
(`LEN = 0xFF`, extended length `0x00 << 8 | 0x02 = 2`) the returned
frame has 12 bytes, not `7 + extended_LEN + 1 = 10` as claimed. -/
theorem c2_counterexample :
    frameLen? (tty_read [0x00, 0x00, 0xFF, 0xFF, 0xFF, 0x00, 0x02, 170, 171, 1, 2, 3]) =
      some 12 ∧
    frameLen? (tty_read [0x00, 0x00, 0xFF, 0xFF, 0xFF, 0x00, 0x02, 170, 171, 1, 2, 3]) ≠
      some (7 + 2 + 1) := by
  decide

/-- C2 (amended): for every serial input stream with at least
`9 + extended_LEN + 1` bytes whose 4th byte is the extended-length
escape `0xFF`, `TTY.read` reads 3 more header bytes, computes the
extended length as the big-endian 16-bit value formed from bytes 6 and
7 of the accumulated buffer, then reads exactly `extended_LEN + 1`
further bytes, returning a frame of total length
`9 + extended_LEN + 1` and leaving the rest of the stream unread. -/
theorem c2_extended_frame_length (s : List Nat) (hL : s.getD 3 0 = 255)
    (hlen : 10 + (s.getD 5 0 <<< 8 ||| s.getD 6 0) ≤ s.length) :
    frameLen? (tty_read s) = some (9 + (s.getD 5 0 <<< 8 ||| s.getD 6 0) + 1) ∧
    frameRest? (tty_read s) =
      some ((s.drop 9).drop ((s.getD 5 0 <<< 8 ||| s.getD 6 0) + 1)) := by
  rw [tty_read_extended s hL hlen]
  constructor
  · simp only [frameLen?, List.length_append, List.length_take, List.length_drop,
      Option.some.injEq]
    omega
  · rfl

/-- Witness for C2 at the stream of `c2_counterexample` (extended
length 2, frame length `9 + 2 + 1 = 12`). -/
theorem c2_extended_frame_length_witness :
    frameLen? (tty_read [0x00, 0x00, 0xFF, 0xFF, 0xFF, 0x00, 0x02, 170, 171, 1, 2, 3]) =
      some (9 + 2 + 1) ∧
    frameRest? (tty_read [0x00, 0x00, 0xFF, 0xFF, 0xFF, 0x00, 0x02, 170, 171, 1, 2, 3]) =
      some [] := by
  have h := c2_extended_frame_length
    [0x00, 0x00, 0xFF, 0xFF, 0xFF, 0x00, 0x02, 170, 171, 1, 2, 3] (by decide) (by decide)
  constructor
  · simpa using h.1
  · simpa using h.2

/-- C3: for every serial input stream that begins with the fixed 6-byte
ACK constant followed by arbitrary further bytes, `TTY.read` returns
exactly the 6-byte ACK constant and consumes no bytes beyond it,
leaving the remainder for the next call. -/
theorem c3_ack_frame (rest : List Nat) :
    tty_read (ACK ++ rest) = .frame ACK rest := by
  have h1 : (ACK ++ rest).take 6 = ACK := List.take_left' rfl
  have h2 : (ACK ++ rest).drop 6 = rest := List.drop_left' rfl
  simp only [tty_read, serial_read, h1, h2]
  rw [if_neg (by decide), if_pos (by decide)]

/-- Witness for C3 with three trailing bytes after the ACK. -/
theorem c3_ack_frame_witness :
    tty_read (ACK ++ [1, 2, 3]) = .frame ACK [1, 2, 3] :=
  c3_ack_frame [1, 2, 3]

/-- Every frame returned by `TTY.read` is nonempty: each returning
branch contains the nonempty first chunk as a prefix. -/
theorem tty_read_frame_ne_nil (s f r : List Nat) (h : tty_read s = .frame f r) :
    f ≠ [] := by
  simp only [tty_read, serial_read] at h
  by_cases h0 : (s.take 6).length = 0
  · rw [if_pos h0] at h
    exact absurd h (by simp)
  rw [if_neg h0] at h
  by_cases hack : ACK.isPrefixOf (s.take 6) = true
  · rw [if_pos hack] at h
    injection h with h1 h2
    intro hnil
    rw [hnil] at h1
    exact h0 (by simp [h1])
  rw [if_neg hack] at h
  by_cases h4 : (s.take 6).length < 4
  · rw [if_pos h4] at h
    exact absurd h (by simp)
  rw [if_neg h4] at h
  by_cases hesc : (s.take 6).getD 3 0 = 255
  · rw [if_pos hesc] at h
    by_cases h7 : (s.take 6 ++ (s.drop 6).take 3).length < 7
    · rw [if_pos h7] at h
      exact absurd h (by simp)
    rw [if_neg h7] at h
    injection h with h1 h2
    intro hnil
    rw [hnil] at h1
    have hl := congrArg List.length h1
    simp only [List.length_append, List.length_nil] at hl
    omega
  rw [if_neg hesc] at h
  injection h with h1 h2
  intro hnil
  rw [hnil] at h1
  have hl := congrArg List.length h1
  simp only [List.length_append, List.length_nil] at hl
  omega

/-- C5: a serial read whose underlying read yields zero bytes raises the
Timeout kind; a USB bulk read that returns zero bytes without an
explicit error raises the GenericIO kind; and neither transport ever
returns an empty frame. -/
theorem c5_zero_byte_reads :
    (∀ s : List Nat, s.take 6 = [] → tty_read s = .error .timeout) ∧
    usb_read (.data []) = .error .genericIo ∧
    (∀ s f r : List Nat, tty_read s = .frame f r → f ≠ []) ∧
    (∀ (o : BulkReadOutcome) (f : List Nat), usb_read o = .ok f → f ≠ []) := by
  refine ⟨?_, rfl, tty_read_frame_ne_nil, ?_⟩
  · intro s hs
    simp only [tty_read, serial_read]
    rw [if_pos (by rw [hs]; rfl)]
  · intro o f h
    cases o with
    | data bs =>
      simp only [usb_read] at h
      by_cases hb : bs.length = 0
      · rw [if_pos hb] at h
        exact absurd h (by simp)
      · rw [if_neg hb] at h
        injection h with h1
        intro hnil
        rw [h1, hnil] at hb
        exact hb rfl
    | errTimeout => exact absurd h (by simp [usb_read])
    | errNoDevice => exact absurd h (by simp [usb_read])
    | errOther => exact absurd h (by simp [usb_read])

/-- Witness for C5: the empty stream times out; the ACK stream returns
a (nonempty) frame; a 3-byte bulk read returns a (nonempty) frame. -/
theorem c5_zero_byte_reads_witness :
    tty_read [] = .error .timeout ∧
    ([0x00, 0x00, 0xFF, 0x00, 0xFF, 0x00] : List Nat) ≠ [] ∧
    ([1, 2, 3] : List Nat) ≠ [] :=
  ⟨c5_zero_byte_reads.1 [] rfl,
    c5_zero_byte_reads.2.2.1 [0x00, 0x00, 0xFF, 0x00, 0xFF, 0x00]
      [0x00, 0x00, 0xFF, 0x00, 0xFF, 0x00] [] (by decide),
    c5_zero_byte_reads.2.2.2 (.data [1, 2, 3]) [1, 2, 3] rfl⟩

/-- C10: on a serial stream that delivers only 2 bytes before timing
out, `TTY.read` passes the empty-check (2 bytes are not zero), fails
the ACK comparison, and then indexes `frame[3]` on the 2-byte buffer,
raising an `IndexError` that is distinct from every mapped error kind
of the five-kind taxonomy and is not a returned frame. -/
theorem c10_short_read_index_error :
    tty_read [1, 2] = .indexError ∧
    TTYReadResult.indexError ≠ .error .timeout ∧
    TTYReadResult.indexError ≠ .error .deviceVanished ∧
    TTYReadResult.indexError ≠ .error .permissionDenied ∧
    TTYReadResult.indexError ≠ .error .deviceBusy ∧
    TTYReadResult.indexError ≠ .error .genericIo := by
  decide

/-- C4: `USB.write` issues the additional zero-length bulk write exactly
when the frame length is a multiple of the OUT endpoint's max packet
size (which is positive on real endpoints). -/
theorem c4_zero_length_packet (f : List Nat) (mps : Nat) (h : 0 < mps) :
    (usb_write f mps = some [f, []] ↔ f.length % mps = 0) ∧
    (usb_write f mps = some [f] ↔ f.length % mps ≠ 0) := by
  unfold usb_write
  rw [if_neg (by omega)]
  by_cases hm : f.length % mps = 0
  · rw [if_pos hm]
    simp [hm]
  · rw [if_neg hm]
    simp [hm]

/-- Witness for C4: a 64-byte frame on a 64-byte endpoint gets the
zero-length packet; a 3-byte frame does not. -/
theorem c4_zero_length_packet_witness :
    usb_write (List.replicate 64 0) 64 = some [List.replicate 64 0, []] ∧
    usb_write [1, 2, 3] 64 = some [[1, 2, 3]] :=
  ⟨(c4_zero_length_packet (List.replicate 64 0) 64 (by decide)).1.mpr (by decide),
    (c4_zero_length_packet [1, 2, 3] 64 (by decide)).2.mpr (by decide)⟩

/-- C6 counterexample: a USB handle already holding device handle 7;
`USB.open` succeeds on a device exposing one bulk IN and one bulk OUT
endpoint and acquires handle 8, yet the list of handles closed during
the call is empty — the previously held resource 7 is dropped without
being released, contradicting the claim for the USB transport. -/
theorem c6_counterexample :
    (usb_open ⟨some 7, none, none⟩ true true
        [⟨0x81, 0x02, 64⟩, ⟨0x02, 0x02, 64⟩] 8 .ok).1.usb_dev = some 8 ∧
    (usb_open ⟨some 7, none, none⟩ true true
        [⟨0x81, 0x02, 64⟩, ⟨0x02, 0x02, 64⟩] 8 .ok).2.1 = [] ∧
    (usb_open ⟨some 7, none, none⟩ true true
        [⟨0x81, 0x02, 64⟩, ⟨0x02, 0x02, 64⟩] 8 .ok).2.2 = .ok () :=
  ⟨rfl, rfl, rfl⟩

/-- C6 (amended): `TTY.open` on an already-open handle first closes
(releases) the previously held resource before acquiring the new one;
`USB.open`, however, merely overwrites its references and never closes
any handle, so a previously held USB device handle is dropped without
being released. -/
theorem c6_open_lifecycle :
    (∀ r newPort : Nat, tty_open (some r) newPort = (some newPort, [r])) ∧
    (∀ (st : USBState) (df hs : Bool) (eps : List Endpoint) (nh : Nat)
      (acq : AcquireOutcome), (usb_open st df hs eps nh acq).2.1 = []) := by
  constructor
  · intro r n
    rfl
  · intro st df hs eps nh acq
    simp only [usb_open]
    split
    · rfl
    · split
      · rfl
      · split
        · rfl
        · cases acq <;> rfl

/-- Witness for C6 at concrete arguments. -/
theorem c6_open_lifecycle_witness :
    tty_open (some 3) 9 = (some 9, [3]) ∧
    (usb_open ⟨some 5, none, none⟩ false true [] 8 .ok).2.1 = [] :=
  ⟨c6_open_lifecycle.1 3 9, c6_open_lifecycle.2 ⟨some 5, none, none⟩ false true [] 8 .ok⟩

/-- C9 counterexample: `USB.open` finds the device, finds both bulk
endpoints, opens device handle 5, then `claimInterface(0)` raises the
access error.  The call reports PermissionDenied but releases nothing:
handle 5 — partial state acquired during the failed open — is still
held in `usb_dev`, contradicting the claim. -/
theorem c9_counterexample :
    (usb_open ⟨none, none, none⟩ true true
        [⟨0x81, 0x02, 64⟩, ⟨0x02, 0x02, 64⟩] 5 (.claimFailed .access)).2.2 =
      .error .permissionDenied ∧
    (usb_open ⟨none, none, none⟩ true true
        [⟨0x81, 0x02, 64⟩, ⟨0x02, 0x02, 64⟩] 5 (.claimFailed .access)).1.usb_dev =
      some 5 ∧
    (usb_open ⟨none, none, none⟩ true true
        [⟨0x81, 0x02, 64⟩, ⟨0x02, 0x02, 64⟩] 5 (.claimFailed .access)).2.1 = [] :=
  ⟨rfl, rfl, rfl⟩

/-- C9 (amended): when `USB.open` fails at the interface-claim step
(after the device handle was opened), it raises the mapped error kind
but releases nothing during the call: the opened handle remains stored
in `usb_dev`, and only a subsequent `USB.close` releases exactly that
handle. -/
theorem c9_failed_open_cleanup (st : USBState) (eps : List Endpoint) (nh : Nat)
    (e : USBClaimError)
    (hin : (scan_endpoints eps none none).1 ≠ none)
    (hout : (scan_endpoints eps none none).2 ≠ none) :
    (usb_open st true true eps nh (.claimFailed e)).2.2 = .error (mapClaimError e) ∧
    (usb_open st true true eps nh (.claimFailed e)).1.usb_dev = some nh ∧
    (usb_open st true true eps nh (.claimFailed e)).2.1 = [] ∧
    (usb_close (usb_open st true true eps nh (.claimFailed e)).1).2 = [nh] := by
  simp only [usb_open]
  rw [if_neg (by simp), if_neg (by simp), if_neg (not_or.mpr ⟨hin, hout⟩)]
  exact ⟨rfl, rfl, rfl, rfl⟩

/-- Witness for C9: a busy-claim failure on a device with one bulk IN
and one bulk OUT endpoint. -/
theorem c9_failed_open_cleanup_witness :
    (usb_open ⟨none, none, none⟩ true true
        [⟨0x81, 0x02, 64⟩, ⟨0x02, 0x02, 64⟩] 6 (.claimFailed .busy)).2.2 =
      .error .deviceBusy ∧
    (usb_close (usb_open ⟨none, none, none⟩ true true
        [⟨0x81, 0x02, 64⟩, ⟨0x02, 0x02, 64⟩] 6 (.claimFailed .busy)).1).2 = [6] := by
  have h := c9_failed_open_cleanup ⟨none, none, none⟩
    [⟨0x81, 0x02, 64⟩, ⟨0x02, 0x02, 64⟩] 6 .busy (by decide) (by decide)
  exact ⟨h.1, h.2.2.2⟩

/-! ## C7: IOError propagation during tty node probing -/

theorem except_map_error_iff {α β : Type} (r : Except Unit α) (f : α → β) :
    r.map f = .error () ↔ r = .error () := by
  cases r with
  | ok a => simp [Except.map]
  | error e =>
    cases e
    simp [Except.map]

theorem isPrefixOf_append_self (l t : List Char) : l.isPrefixOf (l ++ t) = true :=
  (isPrefixOf_true_iff l (l ++ t)).mpr ⟨t, rfl⟩

/-- In non-wildcard mode the probe loop raises exactly when some node's
probe raised `IOError`. -/
theorem probe_ttys_error_iff (nodes : List (List Char × ProbeOutcome)) :
    probe_ttys nodes false = .error () ↔ ∃ n ∈ nodes, n.2 = .ioError := by
  induction nodes with
  | nil => simp [probe_ttys]
  | cons nd rest ih =>
    obtain ⟨n, o⟩ := nd
    cases o with
    | ok => simp [probe_ttys, except_map_error_iff, ih]
    | termiosError => simp [probe_ttys, except_map_error_iff, ih]
    | ioError => simp [probe_ttys]

/-- In wildcard mode the probe loop never raises: accessible nodes
become `/dev/` paths, the rest keep their bare names. -/
theorem probe_ttys_wild (nodes : List (List Char × ProbeOutcome)) :
    probe_ttys nodes true = .ok (nodes.map (fun nd =>
      if nd.2 = ProbeOutcome.ok then devDir ++ nd.1 else nd.1)) := by
  induction nodes with
  | nil => rfl
  | cons nd rest ih =>
    obtain ⟨n, o⟩ := nd
    cases o <;> simp [probe_ttys, ih, Except.map]

/-- The `startswith('/dev/')` filter keeps exactly the successfully
probed nodes, when no raw node name already starts with `/dev/`. -/
theorem filter_probed_nodes (nodes : List (List Char × ProbeOutcome))
    (hno : ∀ n ∈ nodes, devDir.isPrefixOf n.1 = false) :
    (nodes.map (fun nd => if nd.2 = ProbeOutcome.ok then devDir ++ nd.1 else nd.1)).filter
      (fun t => devDir.isPrefixOf t) = goodNodes nodes := by
  induction nodes with
  | nil => rfl
  | cons nd rest ih =>
    obtain ⟨n, o⟩ := nd
    have hn : devDir.isPrefixOf n = false := hno (n, o) (by simp)
    have hrest : ∀ x ∈ rest, devDir.isPrefixOf x.1 = false := fun x hx => hno x (by simp [hx])
    cases o with
    | ok => simp [goodNodes, List.filter_cons, hn, ih hrest, isPrefixOf_append_self]
    | termiosError => simp [goodNodes, List.filter_cons, hn, ih hrest]
    | ioError => simp [goodNodes, List.filter_cons, hn, ih hrest]

/-- C7: during tty path resolution an `IOError` from probing a node is
propagated exactly when the filter pattern does not end in `r'\d+$'`,
which happens exactly for a selector naming one exact node (trailing
digit); for the prefix-wildcard and default patterns the flag is true
and inaccessible nodes are dropped silently, the accessible ones being
returned with their `/dev/` paths. -/
theorem c7_ioerror_propagation :
    (∀ (sel : List Char) (c : Char), sel.getLast? = some c → isDigitChar c = true →
      wildcardFlag (exactPattern sel) = false) ∧
    (∀ sel : List Char, wildcardFlag (wildPattern sel) = true) ∧
    wildcardFlag defaultPattern = true ∧
    (∀ nodes : List (List Char × ProbeOutcome),
      (tty_find_avail nodes false = .error () ↔ ∃ n ∈ nodes, n.2 = .ioError)) ∧
    (∀ nodes : List (List Char × ProbeOutcome),
      (∀ n ∈ nodes, devDir.isPrefixOf n.1 = false) →
      tty_find_avail nodes true = .ok (goodNodes nodes)) := by
  refine ⟨?_, ?_, by decide, ?_, ?_⟩
  · intro sel c hlast hd
    have hh : sel.reverse.head? = some c := by rw [List.head?_reverse]; exact hlast
    obtain ⟨tl, htl⟩ : ∃ tl, sel.reverse = c :: tl := by
      cases hr : sel.reverse with
      | nil => rw [hr] at hh; exact absurd hh (by simp)
      | cons x xs =>
        rw [hr] at hh
        simp only [List.head?] at hh
        injection hh with hx
        exact ⟨xs, by rw [hx]⟩
    have hc : ('+' : Char) ≠ c := by
      intro he
      rw [← he] at hd
      exact absurd hd (by decide)
    show List.isSuffixOf dPlusDollar (exactPattern sel) = false
    rw [List.isSuffixOf]
    have hrev : (exactPattern sel).reverse = '$' :: (c :: tl ++ ['y', 't', 't', '^']) := by
      simp [exactPattern, List.reverse_append, htl]
    rw [hrev]
    simp [dPlusDollar, List.isPrefixOf, hc]
  · intro sel
    simp only [wildcardFlag, wildPattern, List.isSuffixOf_iff_suffix]
    exact ⟨['^', 't', 't', 'y'] ++ sel, by simp⟩
  · intro nodes
    unfold tty_find_avail
    rw [except_map_error_iff]
    exact probe_ttys_error_iff nodes
  · intro nodes hno
    unfold tty_find_avail
    rw [probe_ttys_wild]
    simp only [Except.map]
    rw [filter_probed_nodes nodes hno]

/-- Witness for C7: the exact selector `ACM0` makes the flag false and
an inaccessible node propagates; the wildcard probe over
`ttyACM0` (accessible) and `ttyACM1` (inaccessible) silently keeps
only `/dev/ttyACM0`. -/
theorem c7_ioerror_propagation_witness :
    wildcardFlag (exactPattern "ACM0".toList) = false ∧
    wildcardFlag (wildPattern "ACM".toList) = true ∧
    tty_find_avail [("ttyACM0".toList, .ioError)] false = .error () ∧
    tty_find_avail [("ttyACM0".toList, .ok), ("ttyACM1".toList, .ioError)] true =
      .ok ["/dev/ttyACM0".toList] := by
  refine ⟨c7_ioerror_propagation.1 "ACM0".toList '0' (by decide) (by decide),
    c7_ioerror_propagation.2.1 "ACM".toList,
    (c7_ioerror_propagation.2.2.2.1 [("ttyACM0".toList, .ioError)]).mpr
      ⟨("ttyACM0".toList, .ioError), by simp, rfl⟩,
    ?_⟩
  have h := c7_ioerror_propagation.2.2.2.2
    [("ttyACM0".toList, .ok), ("ttyACM1".toList, .ioError)] (by decide)
  rw [h]
  rfl

/-! ## C8: numeric-suffix ordering of the tty sort -/

theorem digit_bounds {c : Char} (h : isDigitChar c = true) :
    48 ≤ c.toNat ∧ c.toNat ≤ 57 := by
  unfold isDigitChar at h
  rw [Bool.and_eq_true, decide_eq_true_eq, decide_eq_true_eq] at h
  exact h

theorem lexLe_append_left (p x y : List Char) :
    lexLe (p ++ x) (p ++ y) = lexLe x y := by
  induction p with
  | nil => rfl
  | cons c cs ih => simp [lexLe, ih]

theorem lexLe_total (x : List Char) : ∀ y, lexLe x y = true ∨ lexLe y x = true := by
  induction x with
  | nil =>
    intro y
    left
    cases y <;> simp [lexLe]
  | cons a as ih =>
    intro y
    cases y with
    | nil => right; simp [lexLe]
    | cons b bs =>
      rcases Nat.lt_trichotomy a.toNat b.toNat with h | h | h
      · left; simp [lexLe, h]
      · rcases ih bs with h2 | h2
        · left; simp [lexLe, h, h2]
        · right; simp [lexLe, h, h2]
      · right; simp [lexLe, h]

theorem lexLe_trans (x : List Char) :
    ∀ y z, lexLe x y = true → lexLe y z = true → lexLe x z = true := by
  induction x with
  | nil =>
    intro y z _ _
    cases z <;> simp [lexLe]
  | cons a as ih =>
    intro y z hxy hyz
    cases y with
    | nil => simp [lexLe] at hxy
    | cons b bs =>
      cases z with
      | nil => simp [lexLe] at hyz
      | cons c cs =>
        simp only [lexLe] at hxy hyz ⊢
        split_ifs at hxy hyz ⊢ <;>
          first
          | rfl
          | omega
          | exact ih bs cs hxy hyz

theorem foldl_digits (l : List Char) : ∀ i : Nat,
    l.foldl (fun a c => 10 * a + digitVal c) i = i * 10 ^ l.length + digitsVal l := by
  induction l with
  | nil =>
    intro i
    simp [digitsVal]
  | cons c cs ih =>
    intro i
    have h0 : digitsVal (c :: cs) = digitVal c * 10 ^ cs.length + digitsVal cs := by
      show List.foldl (fun a c => 10 * a + digitVal c) (10 * 0 + digitVal c) cs = _
      rw [ih]
      ring
    simp only [List.foldl_cons]
    rw [ih, h0, List.length_cons]
    ring

theorem digitsVal_cons (c : Char) (cs : List Char) :
    digitsVal (c :: cs) = digitVal c * 10 ^ cs.length + digitsVal cs := by
  show List.foldl (fun a c => 10 * a + digitVal c) (10 * 0 + digitVal c) cs = _
  rw [foldl_digits]
  ring

theorem digitsVal_lt_pow (l : List Char) (hd : ∀ c ∈ l, isDigitChar c = true) :
    digitsVal l < 10 ^ l.length := by
  induction l with
  | nil => simp [digitsVal]
  | cons c cs ih =>
    have hb := digit_bounds (hd c (by simp))
    have ihc := ih (fun x hx => hd x (by simp [hx]))
    rw [digitsVal_cons, List.length_cons]
    have h9 : digitVal c ≤ 9 := by unfold digitVal; omega
    have h1 : digitVal c * 10 ^ cs.length ≤ 9 * 10 ^ cs.length :=
      Nat.mul_le_mul_right _ h9
    rw [pow_succ]
    omega

theorem digitsVal_head_lower (c : Char) (cs : List Char) (h1 : 49 ≤ c.toNat) :
    10 ^ cs.length ≤ digitsVal (c :: cs) := by
  rw [digitsVal_cons]
  have h2 : 1 ≤ digitVal c := by unfold digitVal; omega
  have h3 : 1 * 10 ^ cs.length ≤ digitVal c * 10 ^ cs.length :=
    Nat.mul_le_mul_right _ h2
  omega

/-- On digit strings of equal length, key comparison implies numeric
comparison. -/
theorem lexLe_digits_imp (x : List Char) : ∀ y, x.length = y.length →
    (∀ c ∈ x, isDigitChar c = true) → (∀ c ∈ y, isDigitChar c = true) →
    lexLe x y = true → digitsVal x ≤ digitsVal y := by
  induction x with
  | nil =>
    intro y hlen _ _ _
    cases y with
    | nil => exact le_refl _
    | cons b bs => simp at hlen
  | cons a as ih =>
    intro y hlen hdx hdy hlex
    cases y with
    | nil => simp at hlen
    | cons b bs =>
      simp only [List.length_cons] at hlen
      have hlen2 : as.length = bs.length := by omega
      have ba := digit_bounds (hdx a (by simp))
      have bb := digit_bounds (hdy b (by simp))
      rw [digitsVal_cons, digitsVal_cons, ← hlen2]
      simp only [lexLe] at hlex
      rcases Nat.lt_trichotomy a.toNat b.toNat with h | h | h
      · have hva : digitsVal as < 10 ^ as.length :=
          digitsVal_lt_pow as (fun c hc => hdx c (by simp [hc]))
        have hd1 : digitVal a + 1 ≤ digitVal b := by unfold digitVal; omega
        have hm : (digitVal a + 1) * 10 ^ as.length ≤ digitVal b * 10 ^ as.length :=
          Nat.mul_le_mul_right _ hd1
        have hexp : (digitVal a + 1) * 10 ^ as.length =
            digitVal a * 10 ^ as.length + 10 ^ as.length := by ring
        omega
      · have hd0 : digitVal a = digitVal b := by unfold digitVal; omega
        rw [h, if_neg (Nat.lt_irrefl _), if_neg (Nat.lt_irrefl _)] at hlex
        have hrec := ih bs hlen2 (fun c hc => hdx c (by simp [hc]))
          (fun c hc => hdy c (by simp [hc])) hlex
        rw [hd0]
        omega
      · rw [if_neg (by omega), if_pos h] at hlex
        exact absurd hlex Bool.false_ne_true

/-- Key comparison of 3-padded digit strings implies numeric comparison
for nonempty digit strings of at most 3 digits without leading zeros. -/
theorem pad3_lexLe_imp (da db : List Char)
    (hda : ∀ c ∈ da, isDigitChar c = true) (hdb : ∀ c ∈ db, isDigitChar c = true)
    (hna : da ≠ []) (hnb : db ≠ []) (hla : da.length ≤ 3) (hlb : db.length ≤ 3)
    (hza : da.length ≤ 1 ∨ 49 ≤ (da.headD ' ').toNat)
    (hzb : db.length ≤ 1 ∨ 49 ≤ (db.headD ' ').toNat)
    (h : lexLe (pad3 da) (pad3 db) = true) :
    digitsVal da ≤ digitsVal db := by
  rcases Nat.lt_trichotomy da.length db.length with hl | hl | hl
  · cases db with
    | nil => exact absurd rfl hnb
    | cons b bs =>
      have hda1 : 1 ≤ da.length := by
        cases da with
        | nil => exact absurd rfl hna
        | cons _ _ => simp
      have hb49 : 49 ≤ b.toNat := by
        rcases hzb with hz | hz
        · exfalso
          simp only [List.length_cons] at hz hl
          omega
        · simpa using hz
      have hlow : 10 ^ bs.length ≤ digitsVal (b :: bs) := digitsVal_head_lower b bs hb49
      have hup : digitsVal da < 10 ^ da.length := digitsVal_lt_pow da hda
      have hpw : 10 ^ da.length ≤ 10 ^ bs.length :=
        Nat.pow_le_pow_of_le (by omega) (by simp only [List.length_cons] at hl; omega)
      omega
  · have e1 : pad3 da = List.replicate (3 - da.length) ' ' ++ da := rfl
    have e2 : pad3 db = List.replicate (3 - da.length) ' ' ++ db := by
      unfold pad3
      rw [hl]
    rw [e1, e2, lexLe_append_left] at h
    exact lexLe_digits_imp da db hl hda hdb h
  · exfalso
    cases da with
    | nil => exact absurd rfl hna
    | cons a as =>
      have hdb1 : 1 ≤ db.length := by
        cases db with
        | nil => exact absurd rfl hnb
        | cons _ _ => simp
      have hsplit : 3 - db.length =
          (3 - (a :: as).length) + (3 - db.length - (3 - (a :: as).length)) := by
        simp only [List.length_cons] at hla hl ⊢
        omega
      obtain ⟨m, hm⟩ : ∃ m, 3 - db.length - (3 - (a :: as).length) = m + 1 := by
        refine ⟨3 - db.length - (3 - (a :: as).length) - 1, ?_⟩
        simp only [List.length_cons] at hla hl ⊢
        omega
      have e2 : pad3 db = List.replicate (3 - (a :: as).length) ' ' ++
          (' ' :: (List.replicate m ' ' ++ db)) := by
        unfold pad3
        rw [hsplit, List.replicate_add, hm, List.replicate_succ]
        simp
      have e1 : pad3 (a :: as) =
          List.replicate (3 - (a :: as).length) ' ' ++ (a :: as) := rfl
      rw [e1, e2, lexLe_append_left] at h
      have hba := digit_bounds (hda a (by simp))
      have hsp : (' ' : Char).toNat = 32 := rfl
      simp only [lexLe] at h
      rw [if_neg (by omega), if_pos (by omega)] at h
      exact absurd h Bool.false_ne_true

/-- C8 counterexample: against the claim, `ttyS1000` sorts before
`ttyS999` (the `"%3s"` key pads numbers to width 3 only, so a 4-digit
suffix compares lexicographically), violating numeric order within the
equal alphabetic prefix `ttyS`. -/
theorem c8_counterexample :
    sortTTYs ["ttyS999".toList, "ttyS1000".toList] =
      ["ttyS1000".toList, "ttyS999".toList] ∧
    namePre "ttyS1000".toList = namePre "ttyS999".toList ∧
    digitsVal (nameDigits "ttyS1000".toList) = 1000 ∧
    digitsVal (nameDigits "ttyS999".toList) = 999 ∧
    ¬ List.Pairwise (fun a b => namePre a = namePre b →
        digitsVal (nameDigits a) ≤ digitsVal (nameDigits b))
      (sortTTYs ["ttyS999".toList, "ttyS1000".toList]) := by
  refine ⟨by decide, by decide, by decide, by decide, ?_⟩
  intro hp
  rw [show sortTTYs ["ttyS999".toList, "ttyS1000".toList] =
    ["ttyS1000".toList, "ttyS999".toList] by decide] at hp
  cases hp with
  | cons h1 _ =>
    have h2 := h1 "ttyS999".toList (by simp) (by decide)
    rw [show digitsVal (nameDigits "ttyS1000".toList) = 1000 by decide,
      show digitsVal (nameDigits "ttyS999".toList) = 999 by decide] at h2
    omega

/-- C8 (amended): for every list of matching tty device nodes whose
names consist of a nonempty non-digit prefix followed by a numeric
suffix of at most 3 digits without leading zeros, the sort at
transport.py lines 72-74 orders the nodes by the numeric value of the
suffix within equal alphabetic prefixes.  (For suffixes of 4 or more
digits the 3-wide padded key falls back to lexicographic comparison
and numeric order can be violated, see the counterexample.) -/
theorem c8_numeric_suffix_sort (l : List (List Char)) (hwf : ∀ n ∈ l, WFName n) :
    List.Pairwise (fun a b => namePre a = namePre b →
      digitsVal (nameDigits a) ≤ digitsVal (nameDigits b)) (sortTTYs l) := by
  haveI hTot : IsTotal (List Char) ttyKeyLe :=
    ⟨fun a b => lexLe_total (sortKey a) (sortKey b)⟩
  haveI hTrans : IsTrans (List Char) ttyKeyLe :=
    ⟨fun a b c hab hbc => lexLe_trans _ _ _ hab hbc⟩
  have hsorted : List.Pairwise ttyKeyLe (sortTTYs l) :=
    List.sorted_insertionSort ttyKeyLe l
  have hmem : ∀ x ∈ sortTTYs l, WFName x := fun x hx =>
    hwf x ((List.perm_insertionSort ttyKeyLe l).mem_iff.mp hx)
  refine List.Pairwise.imp_of_mem ?_ hsorted
  intro a b ha hb hab hpre
  obtain ⟨_, hna, _, hla, hza⟩ := hmem a ha
  obtain ⟨_, hnb, _, hlb, hzb⟩ := hmem b hb
  have hka : lexLe (pad3 (nameDigits a)) (pad3 (nameDigits b)) = true := by
    have h0 : lexLe (sortKey a) (sortKey b) = true := hab
    unfold sortKey at h0
    rw [hpre, lexLe_append_left] at h0
    exact h0
  exact pad3_lexLe_imp (nameDigits a) (nameDigits b)
    (fun c hc => List.mem_takeWhile_imp hc) (fun c hc => List.mem_takeWhile_imp hc)
    hna hnb hla hlb hza hzb hka

/-- Witness for C8: `ttyACM10` and `ttyACM2` (well-formed names) come
out in numeric order. -/
theorem c8_numeric_suffix_sort_witness :
    List.Pairwise (fun a b => namePre a = namePre b →
      digitsVal (nameDigits a) ≤ digitsVal (nameDigits b))
      (sortTTYs ["ttyACM10".toList, "ttyACM2".toList]) :=
  c8_numeric_suffix_sort ["ttyACM10".toList, "ttyACM2".toList] (by decide)

end Transport
